import Mathlib

/-!
A shallow embedding of the B+Tree index core of `src/P3/Btree/src/btree.h`
(class `BTreeIndex`, BadgerDB-style student project).

Pages live in a buffer pool; we model the pool as a total map from page
numbers to page contents together with a chronological trace of
read/alloc/unpin events (the pin discipline of the source is a property of
that trace).  Machine `int` keys are modelled as `Int` (no arithmetic in the
source can overflow on the inputs of interest), `PageId` as `Nat` with `0`
playing the role of `Page::INVALID_NUMBER`.

The fan-out constants `L` (leaf capacity, `INTARRAYLEAFSIZE`) and `N`
(internal capacity, `INTARRAYNONLEAFSIZE`) are kept as parameters; the
concrete scenarios of the spec instantiate `L = N = 3`.

C++ mutates page bytes in place through pinned pointers; the embedding
threads an explicit store and performs each pointer write as a store write.
Runs of consecutive in-place writes to the same page that are not
interleaved with reads of that page from elsewhere are collapsed into a
single store write of the final record value.
-/

namespace BadgerBt

/-- RecordId from `types.h`: `(page_number, slot_number)`; `page_number = 0`
marks an empty leaf slot. -/
structure RecordId where
  page_number : Nat
  slot_number : Nat
deriving DecidableEq, Repr

/-- The all-zero RecordId produced by `memset 0` of a leaf. -/
def nullRid : RecordId := ⟨0, 0⟩

/-- Leaf node layout (`LeafNodeInt` etc.): `keyArray[L]`, `ridArray[L]`,
`rightSibPageNo`. -/
structure LeafNode where
  keyArray : List Int
  ridArray : List RecordId
  rightSibPageNo : Nat
deriving DecidableEq, Repr

/-- Non-leaf node layout (`NonLeafNodeInt` etc.): `level`, `keyArray[N]`,
`pageNoArray[N+1]`. -/
structure NonLeafNode where
  level : Int
  keyArray : List Int
  pageNoArray : List Nat
deriving DecidableEq, Repr

/-- Index meta info (`IndexMetaInfo`), stored on page 1.  Only `rootPageNo`
is ever consulted by the algorithms modelled here; the identification fields
are carried for completeness. -/
structure IndexMetaInfo where
  relationName : String
  attrByteOffset : Int
  attrType : Nat
  rootPageNo : Nat
deriving DecidableEq, Repr

/-- A page of the index file, tagged by the record type the source casts it
to.  `uninit` stands for a freshly allocated frame that has not been written
yet (the source always `memcpy`s a full record into such a frame before
reading it back). -/
inductive BPage where
  | leaf (l : LeafNode)
  | internal (n : NonLeafNode)
  | meta (m : IndexMetaInfo)
  | uninit
deriving DecidableEq, Repr

/-- An all-zero leaf record (`memset(&x, 0, sizeof(leafType))`). -/
def zeroLeaf (L : Nat) : LeafNode :=
  ⟨List.replicate L 0, List.replicate L nullRid, 0⟩

/-- An all-zero internal record with a given `level`
(`memset` followed by a `level` assignment). -/
def zeroInternal (N : Nat) (lvl : Int) : NonLeafNode :=
  ⟨lvl, List.replicate N 0, List.replicate (N + 1) 0⟩

/-- The `reinterpret_cast<leafType*>` view of a page.  The only place the
source applies it to a non-leaf page is the empty root (all bytes zero), for
which the byte reinterpretation is exactly the all-zero leaf. -/
def BPage.asLeaf (L : Nat) : BPage → LeafNode
  | .leaf l => l
  | _ => zeroLeaf L

/-- The `reinterpret_cast<nonLeafType*>` view of a page.  Applied by the
source only to pages that do hold internal records. -/
def BPage.asInternal (N : Nat) : BPage → NonLeafNode
  | .internal n => n
  | _ => zeroInternal N 0

/-- Buffer-manager events, in the order the source issues them. -/
inductive BufEvent where
  | read (pid : Nat)
  | alloc (pid : Nat)
  | unpin (pid : Nat) (dirty : Bool)
deriving DecidableEq, Repr

/-- Buffer-pool state: page contents, the next page id the allocator hands
out, and the chronological trace of pin-relevant events. -/
structure BufState where
  store : Nat → BPage
  nextPageId : Nat
  trace : List BufEvent

/-- `bufMgr->readPage`: pins and returns the page. -/
def readPage (bs : BufState) (pid : Nat) : BPage × BufState :=
  (bs.store pid, { bs with trace := bs.trace ++ [.read pid] })

/-- `bufMgr->allocPage`: pins a fresh page and returns its id. -/
def allocPage (bs : BufState) : Nat × BufState :=
  (bs.nextPageId,
   { bs with nextPageId := bs.nextPageId + 1,
             trace := bs.trace ++ [.alloc bs.nextPageId] })

/-- `bufMgr->unPinPage`. -/
def unPinPage (bs : BufState) (pid : Nat) (dirty : Bool) : BufState :=
  { bs with trace := bs.trace ++ [.unpin pid dirty] }

/-- A write through a pinned page pointer (or a `memcpy` into the frame). -/
def writePage (bs : BufState) (pid : Nat) (p : BPage) : BufState :=
  { bs with store := fun q => if q = pid then p else bs.store q }

/-- Scan comparison operators (enum `Operator`). -/
inductive Operator where
  | LT
  | LTE
  | GTE
  | GT
deriving DecidableEq, Repr

/-- The `BTreeIndex` fields relevant to the embedded operations: the cached
root page number and the scan cursor state.  `currentPageValid` models
`currentPageData != NULL`. -/
structure BTIndex where
  rootPageNum : Nat
  scanExecuting : Bool
  nextEntry : Nat
  currentPageNum : Nat
  currentPageValid : Bool
  lowValInt : Int
  highValInt : Int
  lowOp : Operator
  highOp : Operator
deriving DecidableEq, Repr

/-! ## Descent (`getPageNoAndOffsetOfKeyInsert`, lines 571-637) -/

/-- The child-slot search inside one internal node (the `for` loop at lines
592-611): starting at slot `j` with `fuel` slots left before `i == N`,
return the first `i` with `pageNoArray[i+1]` invalid or `keyArray[i] >
key`; if the loop runs off the end the result is `N` (fuel exhausted). -/
def childSlotLoop (node : NonLeafNode) (key : Int) : Nat → Nat → Nat
  | 0, j => j
  | fuel + 1, j =>
    if node.pageNoArray.getD (j + 1) 0 = 0 then j
    else if node.keyArray.getD j 0 ≤ key then childSlotLoop node key fuel (j + 1)
    else j

/-- The branch index `i` taken at an internal node (lines 585-615): `0` when
the key is below `keyArray[0]`, otherwise the loop above from slot 0. -/
def findChildSlot (N : Nat) (node : NonLeafNode) (key : Int) : Nat :=
  if key < node.keyArray.getD 0 0 then 0
  else childSlotLoop node key N 0

/-- One-per-level walk of the `while (depth < rootData->level)` loop (lines
584-622).  `curr` is the record the current pinned page is cast to,
`lastPage` its page id; the path accumulates `(child slot, parent page id)`
pairs with the deepest parent at the head (the source pushes onto the back
of a vector and pops from the back).  Each step records the branch, unpins
the current page and pins the chosen child. -/
def descendLoop (N : Nat) (key : Int) :
    Nat → BufState → BPage → Nat → List (Nat × Nat) →
    BPage × Nat × List (Nat × Nat) × BufState
  | 0, bs, curr, lastPage, path => (curr, lastPage, path, bs)
  | fuel + 1, bs, curr, lastPage, path =>
    let node := curr.asInternal N
    let i := findChildSlot N node key
    let path := (i, lastPage) :: path
    let bs := unPinPage bs lastPage false
    let child := node.pageNoArray.getD i 0
    let (tempPage, bs) := readPage bs child
    descendLoop N key fuel bs tempPage child path

/-- The within-leaf positioning loop (lines 624-637).  Arguments: remaining
fuel (initially `L`), current index `j` (initially 0), current `insertAt`
(initially `L`).  Returns `(insertAt, i)` where `i` is the loop index at
exit: the first slot with an unoccupied rid stops the loop; a slot with
`key ≤ keyArray[j]` records `insertAt` (once) and, in read-only mode
(`insert = false`), stops immediately. -/
def leafScanLoop (leaf : LeafNode) (key : Int) (insert : Bool) (L : Nat) :
    Nat → Nat → Nat → Nat × Nat
  | 0, j, ins => (ins, j)
  | fuel + 1, j, ins =>
    if (leaf.ridArray.getD j nullRid).page_number = 0 then
      (if ins = L then j else ins, j)
    else if key > leaf.keyArray.getD j 0 then
      leafScanLoop leaf key insert L fuel (j + 1) ins
    else if ins = L then
      (if insert then leafScanLoop leaf key insert L fuel (j + 1) j else (j, j))
    else
      leafScanLoop leaf key insert L fuel (j + 1) ins

/-- Entry point of the positioning loop: fuel `L`, index 0, `insertAt = L`. -/
def leafScanPos (L : Nat) (leaf : LeafNode) (key : Int) (insert : Bool) : Nat × Nat :=
  leafScanLoop leaf key insert L L 0 L

/-! ## Split helpers (lines 638-821) -/

/-- First invalid slot search `for (k = offset; k <= N; k++) if
(pageNoArray[k] == INVALID) break` — smallest `k ∈ [offset, N]` with an
invalid entry, else `N + 1`. -/
def firstInvalidAux (arr : List Nat) : Nat → Nat → Nat
  | 0, k => k
  | fuel + 1, k => if arr.getD k 0 = 0 then k else firstInvalidAux arr fuel (k + 1)

/-- See `firstInvalidAux`; `firstInvalidFrom arr N offset` runs the search
with `k` from `offset` to `N`. -/
def firstInvalidFrom (arr : List Nat) (N offset : Nat) : Nat :=
  firstInvalidAux arr (N + 1 - offset) offset

/-- The right-shift of an internal node used both when inserting into the
parent of a split child (lines 757-760) and into the grandparent during a
parent split (lines 689-692): `for (; k > stop; k--) { pageNoArray[k] =
pageNoArray[k-1]; if (k-2 >= 0) keyArray[k-1] = keyArray[k-2]; }`. -/
def shiftInternal (stop : Nat) : NonLeafNode → Nat → NonLeafNode
  | node, 0 => node
  | node, k + 1 =>
    if k + 1 > stop then
      let n1 := { node with
        pageNoArray := node.pageNoArray.set (k + 1) (node.pageNoArray.getD k 0) }
      let n2 :=
        if k ≥ 1 then
          { n1 with keyArray := n1.keyArray.set k (n1.keyArray.getD (k - 1) 0) }
        else n1
      shiftInternal stop n2 k
    else node

/-- The move loop of a leaf split (lines 790-796): copy slots
`i, i+1, ...` of `src` to slots `j, j+1, ...` of `dst` and clear them in
`src` (`keyArray[i] = 0`, rid set to `(0,0)`), for `fuel` iterations. -/
def leafMoveAux : LeafNode → LeafNode → Nat → Nat → Nat → LeafNode × LeafNode
  | src, dst, 0, _, _ => (src, dst)
  | src, dst, fuel + 1, i, j =>
    let dst := { dst with
      keyArray := dst.keyArray.set j (src.keyArray.getD i 0),
      ridArray := dst.ridArray.set j (src.ridArray.getD i nullRid) }
    let src := { src with
      keyArray := src.keyArray.set i 0,
      ridArray := src.ridArray.set i nullRid }
    leafMoveAux src dst fuel (i + 1) (j + 1)

/-- The move loop of an internal (parent) split (lines 702-707): for
`i = m+1 .. N-1`, `j = i - (m+1)`: copy `keyArray[i]` to `dst.keyArray[j]`
and `pageNoArray[i+1]` to `dst.pageNoArray[j+1]`, clearing the source
slots. -/
def internalMoveAux : NonLeafNode → NonLeafNode → Nat → Nat → Nat → NonLeafNode × NonLeafNode
  | src, dst, 0, _, _ => (src, dst)
  | src, dst, fuel + 1, i, j =>
    let dst := { dst with
      keyArray := dst.keyArray.set j (src.keyArray.getD i 0),
      pageNoArray := dst.pageNoArray.set (j + 1) (src.pageNoArray.getD (i + 1) 0) }
    let src := { src with
      keyArray := src.keyArray.set i 0,
      pageNoArray := src.pageNoArray.set (i + 1) 0 }
    internalMoveAux src dst fuel (i + 1) (j + 1)

/-- Result bundle of `getPageNoAndOffsetOfKeyInsert`'s four output
parameters. -/
structure DescentResult where
  pageNo : Nat
  insertAt : Nat
  endOfRecordsOffset : Nat
  lastPageNo : Nat
deriving DecidableEq, Repr

/-- One iteration body of the parent-split while loop for a full parent
(lines 667-740), split out for readability.  Returns the updated
`(done, G, rootPageNum, BufState)` where `G = (GparentPageId, Goffset)`.
`parentData` is the (already mutated, not yet written back) record of the
full parent `parentPageId`; `rest` is the remaining path above it. -/
def splitFullParent (N : Nat) (keyValue : Int) (bs : BufState)
    (rootPageNum : Nat) (parentPageId : Nat) (offset : Nat)
    (parentData : NonLeafNode) (rest : List (Nat × Nat))
    (done : Bool) (G : Nat × Nat) :
    Bool × (Nat × Nat) × Nat × BufState :=
  let medianIdxParent := N / 2
  -- lines 674-685: target of the promoted parent key — a fresh root if the
  -- path is exhausted, else the recorded grandparent.
  let alloc1 := allocPage bs
  let res1 :=
    match rest with
    | [] =>
      let newRootId := alloc1.1
      let bs := alloc1.2
      (bs, newRootId, newRootId, 0,
        { zeroInternal N (parentData.level + 1) with
            pageNoArray := (List.replicate (N + 1) 0).set 0 parentPageId },
        newRootId)
    | (ppOff, ppId) :: _ =>
      let (newRoot, bs) := readPage bs ppId
      (bs, rootPageNum, ppId, ppOff, newRoot.asInternal N, rootPageNum)
  let bs := res1.1
  let parentParentPageId := res1.2.2.1
  let parentParentOffset := res1.2.2.2.1
  let newRootData0 := res1.2.2.2.2.1
  let rootPageNum := res1.2.2.2.2.2
  -- lines 686-692: shift the grandparent right of the insertion slot.
  let k2 := firstInvalidFrom newRootData0.pageNoArray N parentParentOffset
  let newRootData1 := shiftInternal parentParentOffset newRootData0 k2
  -- line 696: allocate the parent's right sibling into
  -- pageNoArray[parentParentOffset+1].
  let alloc2 := allocPage bs
  let greaterParentId := alloc2.1
  let bs := alloc2.2
  let newRootData2 := { newRootData1 with
    pageNoArray := newRootData1.pageNoArray.set (parentParentOffset + 1) greaterParentId }
  -- line 697: promote the parent's median key.
  let newRootData := { newRootData2 with
    keyArray := newRootData2.keyArray.set parentParentOffset
      (parentData.keyArray.getD medianIdxParent 0) }
  -- lines 699-711: build the right parent node and clear the moved slots.
  let dpr0 := zeroInternal N parentData.level
  let moved := internalMoveAux parentData dpr0 (N - (medianIdxParent + 1))
    (medianIdxParent + 1) 0
  let parentData1 := moved.1
  let dpr1 := moved.2
  let dpr := { dpr1 with
    pageNoArray := dpr1.pageNoArray.set 0 (parentData1.pageNoArray.getD (medianIdxParent + 1) 0) }
  let parentData2 := { parentData1 with
    pageNoArray := parentData1.pageNoArray.set (medianIdxParent + 1) 0 }
  let parentData3 := { parentData2 with
    keyArray := parentData2.keyArray.set medianIdxParent 0 }
  -- lines 713-726: freeze the target of the pending leaf promotion.  (The
  -- source also dead-assigns `i = Goffset - 1` here.  `offset -
  -- medianIdxParent - 1` is a C++ int; it is non-negative whenever
  -- `keyValue ≥` the promoted key, so Nat truncation agrees.)
  let promotedParentKey := newRootData.keyArray.getD parentParentOffset 0
  let stepG :=
    if done = false then
      if keyValue ≥ promotedParentKey then
        (true, (greaterParentId, offset - medianIdxParent - 1))
      else
        (true, (parentPageId, offset))
    else (done, G)
  let done := stepG.1
  let G := stepG.2
  -- lines 702-711 mutate the parent in place; written back here, then the
  -- memcpys of lines 728-729.
  let bs := writePage bs parentPageId (.internal parentData3)
  let bs := writePage bs parentParentPageId (.internal newRootData)
  let bs := writePage bs greaterParentId (.internal dpr)
  -- lines 731-740: unpin the grandparent and the sibling away from the key.
  let bs := unPinPage bs parentParentPageId true
  let bs :=
    if keyValue ≥ promotedParentKey then
      let bs := unPinPage bs (newRootData.pageNoArray.getD parentParentOffset 0) true
      if newRootData.level ≥ 4 then
        unPinPage bs (newRootData.pageNoArray.getD (parentParentOffset + 1) 0) true
      else bs
    else
      let bs := unPinPage bs (newRootData.pageNoArray.getD (parentParentOffset + 1) 0) true
      if newRootData.level ≥ 4 then
        unPinPage bs (newRootData.pageNoArray.getD parentParentOffset 0) true
      else bs
  (done, G, rootPageNum, bs)

/-- The `while (pathOfTraversal.size() >= 1)` loop of the split path (lines
647-746), walking saved ancestors from the deepest up.  A full parent is
split (and the loop continues); at the first non-full parent the loop
unpins it (unless it is the frozen `G` page) and stops.  Returns
`(GparentPageId, Goffset, rootPageNum, BufState)`. -/
def splitUpLoop (N : Nat) (keyValue : Int) :
    List (Nat × Nat) → BufState → Nat → Bool → (Nat × Nat) →
    Nat × Nat × Nat × BufState
  | [], bs, rootPageNum, _, G => (G.1, G.2, rootPageNum, bs)
  | (offset, parentPageId) :: rest, bs, rootPageNum, done, G =>
    let (parentPage, bs) := readPage bs parentPageId
    let parentData := parentPage.asInternal N
    let G := if done then G else (parentPageId, offset)
    let k := firstInvalidFrom parentData.pageNoArray N offset
    if k = N + 1 then
      let (done, G, rootPageNum, bs) :=
        splitFullParent N keyValue bs rootPageNum parentPageId offset parentData rest done G
      splitUpLoop N keyValue rest bs rootPageNum done G
    else
      let bs := if G.1 ≠ parentPageId then unPinPage bs parentPageId true else bs
      (G.1, G.2, rootPageNum, bs)

/-- The tail of the split path once the target parent `G` is known (lines
747-809): shift-insert room in the parent, promote the leaf median, allocate
the right leaf sibling, relink the sibling chain, move the upper half of the
leaf, and decide which side (and adjusted slot) the pending key lands on. -/
def leafSplitFinish (L N : Nat) (keyValue : Int) (bs : BufState)
    (GparentPageId Goffset lastPage insertAt : Nat) :
    DescentResult × BufState :=
  let medianIdx := L / 2
  let pageNo := lastPage
  let parentData0 := (bs.store GparentPageId).asInternal N
  let dataPage0 := (bs.store lastPage).asLeaf L
  let k := firstInvalidFrom parentData0.pageNoArray N Goffset
  let parentData1 := shiftInternal Goffset parentData0 k
  -- line 761: promote the median key of the full leaf (read before the move).
  let parentData2 := { parentData1 with
    keyArray := parentData1.keyArray.set Goffset (dataPage0.keyArray.getD medianIdx 0) }
  -- line 771: allocate the right sibling into pageNoArray[Goffset+1].
  let alloc1 := allocPage bs
  let greaterKeyId := alloc1.1
  let bs := alloc1.2
  let parentData := { parentData2 with
    pageNoArray := parentData2.pageNoArray.set (Goffset + 1) greaterKeyId }
  let bs := writePage bs GparentPageId (.internal parentData)
  -- lines 772-775: sibling chain.
  let dprInit := { zeroLeaf L with rightSibPageNo := dataPage0.rightSibPageNo }
  let dataPage1 := { dataPage0 with rightSibPageNo := greaterKeyId }
  -- lines 780-789: which side the pending key lands on.
  let side :=
    if keyValue > dataPage1.keyArray.getD medianIdx 0 then
      (insertAt - medianIdx, greaterKeyId, if L % 2 ≠ 0 then medianIdx + 1 else medianIdx)
    else
      (insertAt, lastPage, medianIdx)
  -- lines 790-797: move the upper half across and write both leaves.
  let moved := leafMoveAux dataPage1 dprInit (L - medianIdx) medianIdx 0
  let bs := writePage bs lastPage (.leaf moved.1)
  let bs := writePage bs greaterKeyId (.leaf moved.2)
  -- lines 807-809.
  let bs := unPinPage bs lastPage true
  let bs := unPinPage bs GparentPageId true
  let bs := unPinPage bs (parentData.pageNoArray.getD (Goffset + 1) 0) true
  (⟨side.2.1, side.1, side.2.2, pageNo⟩, bs)

/-- `BTreeIndex::getPageNoAndOffsetOfKeyInsert` (lines 571-821).  The caller
has already pinned the root page and passes its contents (`rootPage`).
Returns the four output parameters, the (possibly changed by a root split)
cached root page number, and the buffer state. -/
def getPageNoAndOffsetOfKeyInsert (L N : Nat) (keyValue : Int)
    (rootPage : BPage) (rootPageNum : Nat) (bs : BufState) (insert : Bool) :
    DescentResult × Nat × BufState :=
  let rootData := rootPage.asInternal N
  let fuel := (rootData.level - 1).toNat
  let (currPage, lastPage, path, bs) :=
    descendLoop N keyValue fuel bs rootPage rootPageNum []
  let dataPage := currPage.asLeaf L
  let pos := leafScanPos L dataPage keyValue insert
  let insertAt := pos.1
  let i := pos.2
  if i = L then
    -- lines 638-746: split path.  (`GparentPageId`/`Goffset` start
    -- uninitialized in the source; the first loop iteration assigns them
    -- since `done` starts false, and insert-mode descents always have a
    -- nonempty path.)
    let (gPid, gOff, rootPageNum, bs) :=
      splitUpLoop N keyValue path bs rootPageNum false (0, 0)
    let (res, bs) := leafSplitFinish L N keyValue bs gPid gOff lastPage insertAt
    (res, rootPageNum, bs)
  else
    -- lines 810-814.
    let bs := unPinPage bs lastPage false
    (⟨lastPage, insertAt, i, lastPage⟩, rootPageNum, bs)

/-! ## Insertion (`insertKeyTemplate`, lines 903-953, and `createRoot`) -/

/-- `BTreeIndex::createRoot` (lines 561-569): an all-zero internal record
with `level = 1` (the "empty root" sentinel). -/
def createRootNode (N : Nat) : NonLeafNode := zeroInternal N 1

/-- The shift-right loop of a leaf insertion (lines 942-945): `for (j =
endOfRecordsOffset; j > insertAt; j--)` copying slot `j-1` to slot `j`. -/
def leafShiftLoop (insertAt : Nat) : LeafNode → Nat → LeafNode
  | leaf, 0 => leaf
  | leaf, j + 1 =>
    if j + 1 > insertAt then
      let leaf := { leaf with
        ridArray := leaf.ridArray.set (j + 1) (leaf.ridArray.getD j nullRid),
        keyArray := leaf.keyArray.set (j + 1) (leaf.keyArray.getD j 0) }
      leafShiftLoop insertAt leaf j
    else leaf

/-- Lines 942-947: make room at `insertAt` and write the new entry. -/
def insertShiftLeaf (leaf : LeafNode) (insertAt endOfRecords : Nat)
    (key : Int) (rid : RecordId) : LeafNode :=
  let leaf := leafShiftLoop insertAt leaf endOfRecords
  { leaf with
    ridArray := leaf.ridArray.set insertAt rid,
    keyArray := leaf.keyArray.set insertAt key }

/-- `BTreeIndex::insertKeyTemplate` (lines 903-953): bootstrap an empty root
into a two-leaf tree, or descend (splitting as needed) and place the entry
in the target leaf. -/
def insertKeyTemplate (L N : Nat) (st : BTIndex) (bs : BufState)
    (keyValue : Int) (rid : RecordId) : BTIndex × BufState :=
  let (rootPage, bs) := readPage bs st.rootPageNum
  let rootData := rootPage.asInternal N
  if rootData.pageNoArray.getD 0 0 = 0 then
    -- lines 911-932: empty-root bootstrap.  The allocPage calls store the
    -- fresh ids straight into pageNoArray[0]/[1] through the root pointer;
    -- the in-place root mutations are written back once at the end.
    let alloc1 := allocPage bs
    let lessId := alloc1.1
    let bs := alloc1.2
    let alloc2 := allocPage bs
    let greaterId := alloc2.1
    let bs := alloc2.2
    let dataPageLeft := { zeroLeaf L with rightSibPageNo := greaterId }
    let bs := writePage bs lessId (.leaf dataPageLeft)
    let bs := unPinPage bs lessId true
    let dataPageRight := { zeroLeaf L with
      keyArray := (List.replicate L (0 : Int)).set 0 keyValue,
      ridArray := (List.replicate L nullRid).set 0 rid }
    let bs := writePage bs greaterId (.leaf dataPageRight)
    let bs := unPinPage bs greaterId true
    let rootData := { rootData with
      level := 2,
      keyArray := rootData.keyArray.set 0 keyValue,
      pageNoArray := (rootData.pageNoArray.set 0 lessId).set 1 greaterId }
    let bs := writePage bs st.rootPageNum (.internal rootData)
    let bs := unPinPage bs st.rootPageNum true
    (st, bs)
  else
    -- lines 933-952.
    let (res, rootPageNum, bs) :=
      getPageNoAndOffsetOfKeyInsert L N keyValue rootPage st.rootPageNum bs true
    let (tempPage, bs) := readPage bs res.pageNo
    let dataPage := tempPage.asLeaf L
    let dataPage := insertShiftLeaf dataPage res.insertAt res.endOfRecordsOffset keyValue rid
    let bs := writePage bs res.pageNo (.leaf dataPage)
    let bs := unPinPage bs res.pageNo true
    ({ st with rootPageNum := rootPageNum }, bs)

/-- `BTreeIndex::insertEntry` for integer keys dispatches to
`insertKeyTemplate<int>`. -/
def insertEntry (L N : Nat) (st : BTIndex) (bs : BufState)
    (keyValue : Int) (rid : RecordId) : BTIndex × BufState :=
  insertKeyTemplate L N st bs keyValue rid

/-! ## Scanning (`scanNextTemplate` lines 824-850, `startScanTemplate`
lines 852-900) -/

/-- Outcome of one `scanNext` call: the next record id, or the
`IndexScanCompletedException`. -/
inductive ScanStep where
  | rid (r : RecordId)
  | completed
deriving DecidableEq, Repr

/-- `BTreeIndex::scanNextTemplate` (lines 824-850). -/
def scanNextTemplate (L : Nat) (st : BTIndex) (bs : BufState) :
    ScanStep × BTIndex × BufState :=
  if st.currentPageValid = false then (.completed, st, bs)
  else
    let dataPage := (bs.store st.currentPageNum).asLeaf L
    if st.highOp = .LT ∧ dataPage.keyArray.getD st.nextEntry 0 ≥ st.highValInt then
      (.completed, st, unPinPage bs st.currentPageNum false)
    else if st.highOp = .LTE ∧ dataPage.keyArray.getD st.nextEntry 0 > st.highValInt then
      (.completed, st, unPinPage bs st.currentPageNum false)
    else
      let outRid := dataPage.ridArray.getD st.nextEntry nullRid
      if st.nextEntry + 1 = L ∨
          (dataPage.ridArray.getD (st.nextEntry + 1) nullRid).page_number = 0 then
        let bs := unPinPage bs st.currentPageNum false
        let st := { st with nextEntry := 0, currentPageNum := dataPage.rightSibPageNo }
        if dataPage.rightSibPageNo = 0 then
          (.rid outRid, { st with currentPageValid := false }, bs)
        else
          let (_, bs) := readPage bs dataPage.rightSibPageNo
          (.rid outRid, { st with currentPageValid := true }, bs)
      else
        (.rid outRid, { st with nextEntry := st.nextEntry + 1 }, bs)

/-- Error outcome of `startScan`. -/
inductive ScanError where
  | badOpcodes
  | badScanrange
  | noSuchKeyFound
deriving DecidableEq, Repr

/-- `BTreeIndex::startScanTemplate` (lines 852-900).  Note that after the
cursor hops to the right sibling, the source keeps using the `dataPage`
pointer of the *first* leaf for the `GT` adjustment and the bound checks;
the embedding reproduces that (`dataPage` is never rebound). -/
def startScanTemplate (L N : Nat) (st : BTIndex) (bs : BufState)
    (lowVal highVal : Int) : Option ScanError × BTIndex × BufState :=
  let st := { st with lowValInt := lowVal, highValInt := highVal }
  let (rootPage, bs) := readPage bs st.rootPageNum
  let (res, rootPageNum, bs) :=
    getPageNoAndOffsetOfKeyInsert L N lowVal rootPage st.rootPageNum bs false
  let st := { st with rootPageNum := rootPageNum }
  if res.lastPageNo = res.pageNo then
    let st := { st with currentPageNum := res.pageNo }
    let (cur, bs) := readPage bs st.currentPageNum
    let st := { st with currentPageValid := true, nextEntry := res.insertAt }
    let dataPage := cur.asLeaf L
    let step1 :=
      if (dataPage.ridArray.getD st.nextEntry nullRid).page_number = 0 then
        if dataPage.rightSibPageNo ≠ 0 then
          let bs := unPinPage bs st.currentPageNum false
          let st := { st with nextEntry := 0, currentPageNum := dataPage.rightSibPageNo }
          let (_, bs) := readPage bs dataPage.rightSibPageNo
          (none, st, bs)
        else
          (some ScanError.noSuchKeyFound, st, unPinPage bs st.currentPageNum false)
      else (none, st, bs)
    match step1 with
    | (some e, st, bs) => (some e, st, bs)
    | (none, st, bs) =>
      let step2 :=
        if st.lowOp = .GT ∧ dataPage.keyArray.getD st.nextEntry 0 = lowVal then
          if st.nextEntry + 1 = L then
            let bs := unPinPage bs st.currentPageNum false
            let st := { st with nextEntry := 0, currentPageNum := dataPage.rightSibPageNo }
            let (_, bs) := readPage bs dataPage.rightSibPageNo
            (st, bs)
          else ({ st with nextEntry := st.nextEntry + 1 }, bs)
        else (st, bs)
      let st := step2.1
      let bs := step2.2
      if dataPage.keyArray.getD st.nextEntry 0 > highVal then
        (some ScanError.noSuchKeyFound, st, unPinPage bs st.currentPageNum false)
      else if st.highOp = .LT ∧ dataPage.keyArray.getD st.nextEntry 0 = highVal then
        (some ScanError.noSuchKeyFound, st, unPinPage bs st.currentPageNum false)
      else (none, st, bs)
  else
    -- TODO case of the source (split during a read-only descent): nothing
    -- is set up and no error is raised.
    (none, st, bs)

/-- Modelled from the spec: the `startScan` entry point.  The dispatcher in
the (absent) `btree.cpp` ends any live scan, validates the operators
(`BadOpcodesException` unless `lowOp ∈ {GT, GTE}` and `highOp ∈ {LT,
LTE}`), rejects `lowVal > highVal` (`BadScanrangeException`), stores the
operators, calls the template and marks the scan active on success. -/
def startScan (L N : Nat) (st : BTIndex) (bs : BufState)
    (lowVal : Int) (lowOp : Operator) (highVal : Int) (highOp : Operator) :
    Option ScanError × BTIndex × BufState :=
  if ¬(lowOp = .GT ∨ lowOp = .GTE) ∨ ¬(highOp = .LT ∨ highOp = .LTE) then
    (some .badOpcodes, st, bs)
  else if lowVal > highVal then
    (some .badScanrange, st, bs)
  else
    let st := { st with lowOp := lowOp, highOp := highOp }
    match startScanTemplate L N st bs lowVal highVal with
    | (some e, st, bs) => (some e, st, bs)
    | (none, st, bs) => (none, { st with scanExecuting := true }, bs)

/-! ## Index lifecycle and test harness -/

/-- Modelled from the spec: the freshly created index file (the
constructor lives in the absent `btree.cpp`).  Page 1 holds the meta record
with `rootPageNo = 2`, page 2 the empty root written by `createRoot`
(visible in the header); allocation continues at page 3.  The constructor's
own pin traffic is not modelled (the trace starts empty). -/
def freshIndex (L N : Nat) : BTIndex × BufState :=
  (⟨2, false, 0, 0, false, 0, 0, .GT, .LT⟩,
   ⟨fun p =>
      if p = 1 then .meta ⟨"rel", 0, 0, 2⟩
      else if p = 2 then .internal (createRootNode N)
      else .uninit,
    3, []⟩)

/-- Run a list of `insertEntry` calls from a given state. -/
def insertAll (L N : Nat) : BTIndex × BufState → List (Int × RecordId) → BTIndex × BufState
  | p, [] => p
  | (st, bs), (k, r) :: rest => insertAll L N (insertEntry L N st bs k r) rest

/-- Run a list of `insertEntry` calls on a fresh index. -/
def buildIndex (L N : Nat) (entries : List (Int × RecordId)) : BTIndex × BufState :=
  insertAll L N (freshIndex L N) entries

/-- Drive `scanNext` until `IndexScanCompletedException`, collecting the
returned record ids (with fuel, as a test harness would loop). -/
def runScan (L : Nat) : Nat → BTIndex → BufState → List RecordId
  | 0, _, _ => []
  | fuel + 1, st, bs =>
    match scanNextTemplate L st bs with
    | (.completed, _, _) => []
    | (.rid r, st, bs) => r :: runScan L fuel st bs

/-- Build an index from `entries`, start a scan, and collect all results
(empty on a `startScan` error). -/
def buildAndScan (L N : Nat) (entries : List (Int × RecordId))
    (lowVal : Int) (lowOp : Operator) (highVal : Int) (highOp : Operator)
    (fuel : Nat) : List RecordId :=
  let (st, bs) := buildIndex L N entries
  match startScan L N st bs lowVal lowOp highVal highOp with
  | (some _, _, _) => []
  | (none, st, bs) => runScan L fuel st bs

/-! ## Specification-side definitions

The following definitions transcribe the words of the specification (not the
source); they exist to be compared against the functions above. -/

/-- Spec wording of the within-leaf insert slot: "the index of the first
slot whose rid is unoccupied or whose key is strictly greater than the
search key" (auxiliary loop from slot `j` with `fuel` slots left, result
`L`-plus when no slot qualifies). -/
def specSlotGTAux (leaf : LeafNode) (key : Int) : Nat → Nat → Nat
  | 0, j => j
  | fuel + 1, j =>
    if (leaf.ridArray.getD j nullRid).page_number = 0 ∨ key < leaf.keyArray.getD j 0 then j
    else specSlotGTAux leaf key fuel (j + 1)

/-- Spec wording of the claimed insert slot (strict comparison), over the
whole leaf. -/
def specInsertSlotGT (L : Nat) (leaf : LeafNode) (key : Int) : Nat :=
  specSlotGTAux leaf key L 0

/-- The slot the source actually computes: the first slot whose rid is
unoccupied or whose key is greater than *or equal to* the search key
(auxiliary loop). -/
def specSlotGEAux (leaf : LeafNode) (key : Int) : Nat → Nat → Nat
  | 0, j => j
  | fuel + 1, j =>
    if (leaf.ridArray.getD j nullRid).page_number = 0 ∨ key ≤ leaf.keyArray.getD j 0 then j
    else specSlotGEAux leaf key fuel (j + 1)

/-- First slot with rid unoccupied or key `≥` the search key, over the whole
leaf (`L` when none). -/
def specInsertSlotGE (L : Nat) (leaf : LeafNode) (key : Int) : Nat :=
  specSlotGEAux leaf key L 0

/-- Spec wording of `end_of_records`: "the index of the first unoccupied
slot" (auxiliary loop). -/
def specUnoccAux (leaf : LeafNode) : Nat → Nat → Nat
  | 0, j => j
  | fuel + 1, j =>
    if (leaf.ridArray.getD j nullRid).page_number = 0 then j
    else specUnoccAux leaf fuel (j + 1)

/-- Index of the first unoccupied slot of a leaf, "or `L` if the leaf is
full". -/
def specFirstUnocc (L : Nat) (leaf : LeafNode) : Nat :=
  specUnoccAux leaf L 0

/-! ## Pin accounting over buffer traces -/

/-- Contribution of one buffer event to the number of held pins. -/
def pinDelta : BufEvent → Int
  | .unpin _ _ => -1
  | _ => 1

/-- Number of pins held after a trace (reads and allocs pin, unpins
release). -/
def pinnedTotal (tr : List BufEvent) : Int :=
  (tr.map pinDelta).sum

/-- Contribution of one buffer event to the pin count of page `p`. -/
def pagePinDelta (p : Nat) : BufEvent → Int
  | .read q => if q = p then 1 else 0
  | .alloc q => if q = p then 1 else 0
  | .unpin q _ => if q = p then -1 else 0

/-- Pin count of page `p` after a trace. -/
def pagePin (p : Nat) (tr : List BufEvent) : Int :=
  (tr.map (pagePinDelta p)).sum

/-! ## Concrete scenarios (the spec fixes `L = N = 3`, rids `(key, 1)`) -/

/-- Entry sequence of concrete scenario 2: keys 10, 20, 30, 40. -/
def entries4 : List (Int × RecordId) :=
  [(10, ⟨10, 1⟩), (20, ⟨20, 1⟩), (30, ⟨30, 1⟩), (40, ⟨40, 1⟩)]

/-- Ascending keys 10..60: enough to split the root at `L = N = 3`. -/
def entries6 : List (Int × RecordId) :=
  [(10, ⟨10, 1⟩), (20, ⟨20, 1⟩), (30, ⟨30, 1⟩),
   (40, ⟨40, 1⟩), (50, ⟨50, 1⟩), (60, ⟨60, 1⟩)]

/-- A single entry with key 10. -/
def entries1 : List (Int × RecordId) := [(10, ⟨10, 1⟩)]

/-- Two inserts of the duplicate key 7 with distinguishable rids. -/
def entriesDup : List (Int × RecordId) := [(7, ⟨7, 1⟩), (7, ⟨7, 2⟩)]

/-- A concrete buffer for exercising the leaf split: page 10 is a level-2
parent with one key and children 3, 4; page 4 is the full leaf
`[10, 20, 30]`; the next allocated page will be 5. -/
def c7buf : BufState :=
  ⟨fun p =>
    if p = 10 then .internal ⟨2, [10, 0, 0], [3, 4, 0, 0]⟩
    else if p = 4 then .leaf ⟨[10, 20, 30], [⟨10, 1⟩, ⟨20, 1⟩, ⟨30, 1⟩], 0⟩
    else .uninit,
   5, []⟩

/-- A concrete buffer for exercising descent pin accounting: the four-entry
tree of `entries4` with the root freshly pinned (trace `[read 2]`), as
`insertKeyTemplate` leaves it just before calling the descent. -/
def c8buf : BufState :=
  { (buildIndex 3 3 entries4).2 with trace := [.read 2] }

/-- Index state of the four-entry tree, for the splitless-insert frame
claim. -/
def c10st : BTIndex := (buildIndex 3 3 entries4).1

/-- Buffer state of the four-entry tree. -/
def c10bs : BufState := (buildIndex 3 3 entries4).2

/-- The descent walk for key 15 on the four-entry tree (it ends on the
non-full leaf page 4). -/
def c10walk : BPage × Nat × List (Nat × Nat) × BufState :=
  descendLoop 3 15 ((((c10bs.store c10st.rootPageNum).asInternal 3).level - 1).toNat)
    ((readPage c10bs c10st.rootPageNum).2) (c10bs.store c10st.rootPageNum) c10st.rootPageNum []

/-- The leaf reached by `c10walk`. -/
def c10leaf : LeafNode := c10walk.1.asLeaf 3

/-- The within-leaf position of key 15 in `c10leaf`. -/
def c10pos : Nat × Nat := leafScanPos 3 c10leaf 15 true

/-- The leaf after shifting in `(15, (15,1))`. -/
def c10new : LeafNode := insertShiftLeaf c10leaf c10pos.1 c10pos.2 15 ⟨15, 1⟩

/-- A concrete mid-scan cursor state: active scan over page 4, cursor at
slot 0, bounds `[0, 100]` with `GTE`/`LTE`. -/
def c9state : BTIndex := ⟨2, true, 0, 4, true, 0, 100, .GTE, .LTE⟩

/-- A concrete buffer holding one leaf (page 4) with the single entry
`(10, (10,1))`. -/
def c9buf : BufState :=
  ⟨fun p => if p = 4 then .leaf ⟨[10, 0, 0], [⟨10, 1⟩, nullRid, nullRid], 0⟩ else .uninit,
   5, []⟩

/-! # Theorems -/

/-! ## List helpers -/

theorem getD_set_self {α : Type} {l : List α} {i : Nat} (h : i < l.length) (a d : α) :
    (l.set i a).getD i d = a := by
  simp [List.getD_eq_getElem?_getD, List.getElem?_set_self h]

theorem getD_set_ne {α : Type} {l : List α} {i j : Nat} (h : i ≠ j) (a d : α) :
    (l.set i a).getD j d = l.getD j d := by
  simp [List.getD_eq_getElem?_getD, List.getElem?_set_ne h]

theorem getD_replicate {α : Type} (n t : Nat) (a : α) :
    (List.replicate n a).getD t a = a := by
  rw [List.getD_eq_getElem?_getD, List.getElem?_replicate]
  split <;> rfl

theorem asLeaf_leaf (L : Nat) (l : LeafNode) : (BPage.leaf l).asLeaf L = l := rfl

theorem asInternal_internal (N : Nat) (n : NonLeafNode) :
    (BPage.internal n).asInternal N = n := rfl

/-! ## The within-leaf positioning loop (claim C6) -/

theorem leafScanLoop_set (leaf : LeafNode) (key : Int) (insert : Bool) (L : Nat) :
    ∀ fuel j v, v ≠ L →
      leafScanLoop leaf key insert L fuel j v = (v, specUnoccAux leaf fuel j) := by
  intro fuel
  induction fuel with
  | zero => intro j v _; rfl
  | succ fuel ih =>
    intro j v hv
    simp only [leafScanLoop, specUnoccAux]
    by_cases h1 : (leaf.ridArray.getD j nullRid).page_number = 0
    · rw [if_pos h1, if_pos h1, if_neg hv]
    · rw [if_neg h1, if_neg h1]
      by_cases h2 : key > leaf.keyArray.getD j 0
      · rw [if_pos h2]; exact ih (j + 1) v hv
      · rw [if_neg h2, if_neg hv]; exact ih (j + 1) v hv

theorem leafScanLoop_unset (leaf : LeafNode) (key : Int) (insert : Bool) (L : Nat) :
    ∀ fuel j, j + fuel = L →
      leafScanLoop leaf key insert L fuel j L =
        (specSlotGEAux leaf key fuel j,
         if insert then specUnoccAux leaf fuel j else specSlotGEAux leaf key fuel j) := by
  intro fuel
  induction fuel with
  | zero =>
    intro j hj
    have hjL : j = L := by omega
    subst hjL
    cases insert <;> rfl
  | succ fuel ih =>
    intro j hj
    have hjL : j ≠ L := by omega
    simp only [leafScanLoop, specSlotGEAux, specUnoccAux]
    by_cases h1 : (leaf.ridArray.getD j nullRid).page_number = 0
    · rw [if_pos h1, if_pos (Or.inl h1), if_pos h1]
      cases insert <;> simp
    · by_cases h2 : key > leaf.keyArray.getD j 0
      · have hor : ¬ ((leaf.ridArray.getD j nullRid).page_number = 0 ∨
            key ≤ leaf.keyArray.getD j 0) := by
          rintro (h | h)
          · exact h1 h
          · exact absurd h2 (not_lt.mpr h)
        rw [if_neg h1, if_pos h2, if_neg hor, if_neg h1, ih (j + 1) (by omega)]
      · have hor : (leaf.ridArray.getD j nullRid).page_number = 0 ∨
            key ≤ leaf.keyArray.getD j 0 := Or.inr (not_lt.mp h2)
        rw [if_neg h1, if_neg h2, if_pos hor, if_neg h1]
        cases insert with
        | false => simp
        | true =>
          rw [leafScanLoop_set leaf key true L fuel (j + 1) j hjL]
          simp

/-- Claim C6 (amended).  The within-leaf positioning of the descent
(`leafScanPos`, lines 624-637 of `btree.h`) returns as `insert_slot` the
index of the first slot whose rid is unoccupied or whose key is greater
than **or equal to** the search key (so a duplicate is placed *before* all
existing equal keys), and as `end_of_records` the index of the first
unoccupied slot (or `L` if the leaf is full) in insert mode, while in
read-only mode the loop stops early and returns `end_of_records` equal to
`insert_slot`. -/
theorem c6_leaf_positioning (L : Nat) (leaf : LeafNode) (key : Int) :
    leafScanPos L leaf key true = (specInsertSlotGE L leaf key, specFirstUnocc L leaf) ∧
    leafScanPos L leaf key false = (specInsertSlotGE L leaf key, specInsertSlotGE L leaf key) := by
  constructor
  · simpa using leafScanLoop_unset leaf key true L L 0 (by omega)
  · simpa using leafScanLoop_unset leaf key false L L 0 (by omega)

/-- Claim C6, counterexample to the claim as stated: on a leaf holding the
single key 7 and search key 7 (insert mode), the source computes
`insert_slot = 0`, not the index 1 of the first slot whose key is strictly
greater or whose rid is unoccupied — the duplicate goes *before* the
existing equal key. -/
theorem c6_counterexample :
    (leafScanPos 3 ⟨[7, 0, 0], [⟨7, 1⟩, nullRid, nullRid], 0⟩ 7 true).1 ≠
      specInsertSlotGT 3 ⟨[7, 0, 0], [⟨7, 1⟩, nullRid, nullRid], 0⟩ 7 := by
  decide

/-! ## scanNext (claim C9) -/

/-- Claim C9.  `scanNext` on an active scan yields
`IndexScanCompletedException` exactly when the current page handle is null
or the key under the cursor fails the upper bound (`key ≥ high` under `LT`,
`key > high` under `LTE`); in the bound-failure case the only buffer action
is unpinning the current page before the exception, and otherwise the rid
at the cursor position is returned. -/
theorem c9_scanNext (L : Nat) (st : BTIndex) (bs : BufState)
    (hactive : st.scanExecuting = true) :
    ((scanNextTemplate L st bs).1 = ScanStep.completed ↔
      (st.currentPageValid = false ∨
        (st.highOp = Operator.LT ∧
          ((bs.store st.currentPageNum).asLeaf L).keyArray.getD st.nextEntry 0 ≥ st.highValInt) ∨
        (st.highOp = Operator.LTE ∧
          ((bs.store st.currentPageNum).asLeaf L).keyArray.getD st.nextEntry 0 > st.highValInt))) ∧
    (st.currentPageValid = true →
      ((st.highOp = Operator.LT ∧
          ((bs.store st.currentPageNum).asLeaf L).keyArray.getD st.nextEntry 0 ≥ st.highValInt) ∨
        (st.highOp = Operator.LTE ∧
          ((bs.store st.currentPageNum).asLeaf L).keyArray.getD st.nextEntry 0 > st.highValInt)) →
      (scanNextTemplate L st bs).2.2.trace = bs.trace ++ [BufEvent.unpin st.currentPageNum false]) ∧
    (st.currentPageValid = true →
      ¬ ((st.highOp = Operator.LT ∧
          ((bs.store st.currentPageNum).asLeaf L).keyArray.getD st.nextEntry 0 ≥ st.highValInt) ∨
        (st.highOp = Operator.LTE ∧
          ((bs.store st.currentPageNum).asLeaf L).keyArray.getD st.nextEntry 0 > st.highValInt)) →
      (scanNextTemplate L st bs).1 =
        ScanStep.rid (((bs.store st.currentPageNum).asLeaf L).ridArray.getD st.nextEntry nullRid)) := by
  clear hactive
  cases hv : st.currentPageValid with
  | false =>
    refine ⟨by simp [scanNextTemplate, hv], ?_, ?_⟩
    · intro h; exact absurd h (by decide)
    · intro h; exact absurd h (by decide)
  | true =>
    have huv : ¬ st.currentPageValid = false := by simp [hv]
    refine ⟨?_, ?_, ?_⟩
    · simp only [scanNextTemplate, if_neg huv]
      split_ifs with h1 h2 h3 h4 <;> simp_all
    · intro _ hb
      simp only [scanNextTemplate, if_neg huv]
      rcases hb with h | h
      · rw [if_pos h]; rfl
      · have hnLT : ¬ (st.highOp = Operator.LT ∧
            ((bs.store st.currentPageNum).asLeaf L).keyArray.getD st.nextEntry 0 ≥
              st.highValInt) :=
          fun hc => absurd (h.1.symm.trans hc.1) (by decide)
        rw [if_neg hnLT, if_pos h]; rfl
    · intro _ hn
      simp only [scanNextTemplate, if_neg huv]
      rw [if_neg (fun hc => hn (Or.inl hc)), if_neg (fun hc => hn (Or.inr hc))]
      split_ifs <;> rfl

/-- Witness for C9: on the concrete cursor of `c9state`/`c9buf` the bound
does not fail and `scanNext` returns the rid under the cursor. -/
theorem c9_scanNext_witness :
    (scanNextTemplate 3 c9state c9buf).1 =
      ScanStep.rid (((c9buf.store c9state.currentPageNum).asLeaf 3).ridArray.getD
        c9state.nextEntry nullRid) :=
  (c9_scanNext 3 c9state c9buf (by decide)).2.2 (by decide) (by decide)

/-! ## Concrete scenario claims (C1 — C5) -/

/-- Claim C1 (code bug).  Insert the single entry `(10, (10,1))` into a
fresh `L = N = 3` index and run a full-range scan with bounds
`(0, GT, 1000, LTE)` — `0` is below the only key and `1000` above it.  The
scan returns the single rid `(0,0)` (an empty-slot marker, violating the
scan's own debug assertions `outRid.page_number != INVALID_NUMBER` and
`outRid.slot_number != 0` at lines 838-841 of `btree.h`) instead of
`(10,1)`: after `startScan` hops from the empty bootstrap leaf to its right
sibling, the `GT` equal-key adjustment reads the stale `dataPage` pointer of
the empty leaf (key 0 = low bound 0) and advances the cursor past the real
entry. -/
theorem c1_scan_returns_null_rid :
    buildAndScan 3 3 entries1 0 Operator.GT 1000 Operator.LTE 5 = [nullRid] ∧
    [nullRid] ≠ [(⟨10, 1⟩ : RecordId)] := by
  constructor
  · decide
  · decide

/-- Claim C2, counterexample to the claimed tree shape: after inserting
`[10, 20, 30, 40]` into a fresh `L = N = 3` index the root does not hold the
single key 30 — its first key is 10 (and it has two keys, 10 and 20). -/
theorem c2_counterexample :
    (((buildIndex 3 3 entries4).2.store 2).asInternal 3).keyArray.getD 0 0 ≠ 30 := by
  decide

/-- Claim C2 (amended).  Inserting `[10, 20, 30, 40]` into a fresh
`L = N = 3` index and scanning `(10, GTE, 40, LTE)` does yield
`[(10,1), (20,1), (30,1), (40,1)]`, but the resulting tree is: a level-2
internal root (page 2) holding the two keys 10 and 20 with three children —
the empty bootstrap leaf (page 3), a leaf `[10]` (page 4) and a leaf
`[20, 30, 40]` (page 5) — chained `3 → 4 → 5` by right-sibling pointers
(the leaf split at `m = L/2 = 1` promotes 20, not 30). -/
theorem c2_scenario :
    buildAndScan 3 3 entries4 10 Operator.GTE 40 Operator.LTE 10 =
      [⟨10, 1⟩, ⟨20, 1⟩, ⟨30, 1⟩, ⟨40, 1⟩] ∧
    (buildIndex 3 3 entries4).2.store 2 = .internal ⟨2, [10, 20, 0], [3, 4, 5, 0]⟩ ∧
    (buildIndex 3 3 entries4).2.store 3 = .leaf ⟨[0, 0, 0], [nullRid, nullRid, nullRid], 4⟩ ∧
    (buildIndex 3 3 entries4).2.store 4 = .leaf ⟨[10, 0, 0], [⟨10, 1⟩, nullRid, nullRid], 5⟩ ∧
    (buildIndex 3 3 entries4).2.store 5 = .leaf ⟨[20, 30, 40], [⟨20, 1⟩, ⟨30, 1⟩, ⟨40, 1⟩], 0⟩ := by
  refine ⟨by decide, by decide, by decide, by decide, by decide⟩

/-- Claim C3 (code bug).  Inserting the ascending keys 10..60 into a fresh
`L = N = 3` index splits the root: the cached root page number becomes 7
(the new level-3 root), but the meta page (page 1) still records
`rootPageNo = 2` — nothing in the insert path of `btree.h` ever writes the
meta page, contradicting the header's own documentation ("If root gets
split, metapage needs to be changed accordingly", line 451). -/
theorem c3_meta_stale_after_root_split :
    (buildIndex 3 3 entries6).1.rootPageNum = 7 ∧
    (buildIndex 3 3 entries6).2.store 1 = .meta ⟨"rel", 0, 0, 2⟩ ∧
    (buildIndex 3 3 entries6).2.store 7 = .internal ⟨3, [20, 0, 0], [2, 8, 0, 0]⟩ ∧
    (buildIndex 3 3 entries6).2.store 2 = .internal ⟨2, [10, 0, 0], [3, 4, 0, 0]⟩ ∧
    (2 : Nat) ≠ 7 := by
  refine ⟨by decide, by decide, by decide, by decide, by decide⟩

/-- Claim C4 (code bug).  After the very first insert the parent of the two
leaves is the root with `level = 2`, not `level = 1`: the code uses `level`
as a height counter (bootstrap sets 2, `createRoot` sets 1 for the empty
sentinel, a root split stores `old level + 1`), contradicting the header's
own comment (lines 181-182: level "is set to 1 if the nodes at this level
are just above the leaf nodes"). -/
theorem c4_level_semantics :
    (buildIndex 3 3 entries1).2.store 2 = .internal ⟨2, [10, 0, 0], [3, 4, 0, 0]⟩ ∧
    (buildIndex 3 3 entries1).2.store 3 = .leaf ⟨[0, 0, 0], [nullRid, nullRid, nullRid], 4⟩ ∧
    (buildIndex 3 3 entries1).2.store 4 = .leaf ⟨[10, 0, 0], [⟨10, 1⟩, nullRid, nullRid], 0⟩ ∧
    (2 : Int) ≠ 1 := by
  refine ⟨by decide, by decide, by decide, by decide⟩

/-- Claim C5 (code bug).  After inserting one entry into a fresh index the
tree holds data, yet the bootstrap's left leaf (page 3, child 0 of the
root) has no occupied slot at all (every `rid.page_number` is 0), violating
the claimed occupancy invariant for non-root nodes; since key 10 is the
minimum, no later insert ever lands there either. -/
theorem c5_empty_bootstrap_leaf :
    (buildIndex 3 3 entries1).2.store 3 = .leaf ⟨[0, 0, 0], [nullRid, nullRid, nullRid], 4⟩ ∧
    (((buildIndex 3 3 entries1).2.store 2).asInternal 3).pageNoArray.getD 0 0 = 3 ∧
    specFirstUnocc 3 ⟨[0, 0, 0], [nullRid, nullRid, nullRid], 4⟩ = 0 := by
  refine ⟨by decide, by decide, by decide⟩

/-! ## The leaf split step (claim C7) -/

theorem shiftInternal_keyArray_length (stop : Nat) :
    ∀ (node : NonLeafNode) (k : Nat),
      (shiftInternal stop node k).keyArray.length = node.keyArray.length := by
  intro node k
  induction k generalizing node with
  | zero => rfl
  | succ k ih =>
    simp only [shiftInternal]
    by_cases h : k + 1 > stop
    · rw [if_pos h]
      by_cases h2 : k ≥ 1 <;> simp [h2, ih]
    · rw [if_neg h]

theorem shiftInternal_pageNoArray_length (stop : Nat) :
    ∀ (node : NonLeafNode) (k : Nat),
      (shiftInternal stop node k).pageNoArray.length = node.pageNoArray.length := by
  intro node k
  induction k generalizing node with
  | zero => rfl
  | succ k ih =>
    simp only [shiftInternal]
    by_cases h : k + 1 > stop
    · rw [if_pos h]
      by_cases h2 : k ≥ 1 <;> simp [h2, ih]
    · rw [if_neg h]

theorem leafMoveAux_spec :
    ∀ (fuel : Nat) (src dst : LeafNode) (i j : Nat),
      i + fuel ≤ src.keyArray.length → i + fuel ≤ src.ridArray.length →
      j + fuel ≤ dst.keyArray.length → j + fuel ≤ dst.ridArray.length →
      (leafMoveAux src dst fuel i j).1.rightSibPageNo = src.rightSibPageNo ∧
      (leafMoveAux src dst fuel i j).2.rightSibPageNo = dst.rightSibPageNo ∧
      (∀ t, (leafMoveAux src dst fuel i j).1.keyArray.getD t 0 =
        if i ≤ t ∧ t < i + fuel then 0 else src.keyArray.getD t 0) ∧
      (∀ t, (leafMoveAux src dst fuel i j).1.ridArray.getD t nullRid =
        if i ≤ t ∧ t < i + fuel then nullRid else src.ridArray.getD t nullRid) ∧
      (∀ t, (leafMoveAux src dst fuel i j).2.keyArray.getD t 0 =
        if j ≤ t ∧ t < j + fuel then src.keyArray.getD (i + (t - j)) 0
        else dst.keyArray.getD t 0) ∧
      (∀ t, (leafMoveAux src dst fuel i j).2.ridArray.getD t nullRid =
        if j ≤ t ∧ t < j + fuel then src.ridArray.getD (i + (t - j)) nullRid
        else dst.ridArray.getD t nullRid) := by
  intro fuel
  induction fuel with
  | zero =>
    intro src dst i j _ _ _ _
    refine ⟨rfl, rfl, ?_, ?_, ?_, ?_⟩ <;>
      (intro t; rw [if_neg (by omega)]; rfl)
  | succ fuel ih =>
    intro src dst i j hsk hsr hdk hdr
    simp only [leafMoveAux]
    obtain ⟨ih1, ih2, ih3, ih4, ih5, ih6⟩ :=
      ih ⟨src.keyArray.set i 0, src.ridArray.set i nullRid, src.rightSibPageNo⟩
        ⟨dst.keyArray.set j (src.keyArray.getD i 0),
         dst.ridArray.set j (src.ridArray.getD i nullRid), dst.rightSibPageNo⟩
        (i + 1) (j + 1) (by simpa using by omega) (by simpa using by omega)
        (by simpa using by omega) (by simpa using by omega)
    refine ⟨ih1, ih2, ?_, ?_, ?_, ?_⟩
    · intro t
      rw [ih3 t]
      by_cases ht : i + 1 ≤ t ∧ t < i + 1 + fuel
      · rw [if_pos ht, if_pos (by omega)]
      · rw [if_neg ht]
        by_cases hti : t = i
        · subst hti
          rw [if_pos (by omega)]
          exact getD_set_self (by omega) 0 0
        · rw [if_neg (by omega)]
          exact getD_set_ne (fun h => hti h.symm) 0 0
    · intro t
      rw [ih4 t]
      by_cases ht : i + 1 ≤ t ∧ t < i + 1 + fuel
      · rw [if_pos ht, if_pos (by omega)]
      · rw [if_neg ht]
        by_cases hti : t = i
        · subst hti
          rw [if_pos (by omega)]
          exact getD_set_self (by omega) nullRid nullRid
        · rw [if_neg (by omega)]
          exact getD_set_ne (fun h => hti h.symm) nullRid nullRid
    · intro t
      rw [ih5 t]
      by_cases ht : j + 1 ≤ t ∧ t < j + 1 + fuel
      · rw [if_pos ht, if_pos (by omega)]
        have harg : i + 1 + (t - (j + 1)) = i + (t - j) := by omega
        rw [harg]
        exact getD_set_ne (by omega) 0 0
      · rw [if_neg ht]
        by_cases htj : t = j
        · rw [htj, if_pos (by omega)]
          have harg : i + (j - j) = i := by omega
          rw [harg]
          exact getD_set_self (by omega) (src.keyArray.getD i 0) 0
        · rw [if_neg (by omega)]
          exact getD_set_ne (fun h => htj h.symm) (src.keyArray.getD i 0) 0
    · intro t
      rw [ih6 t]
      by_cases ht : j + 1 ≤ t ∧ t < j + 1 + fuel
      · rw [if_pos ht, if_pos (by omega)]
        have harg : i + 1 + (t - (j + 1)) = i + (t - j) := by omega
        rw [harg]
        exact getD_set_ne (by omega) nullRid nullRid
      · rw [if_neg ht]
        by_cases htj : t = j
        · rw [htj, if_pos (by omega)]
          have harg : i + (j - j) = i := by omega
          rw [harg]
          exact getD_set_self (by omega) (src.ridArray.getD i nullRid) nullRid
        · rw [if_neg (by omega)]
          exact getD_set_ne (fun h => htj h.symm) (src.ridArray.getD i nullRid) nullRid

/-- Claim C7.  The leaf-split tail (`leafSplitFinish`, lines 747-809 of
`btree.h`) of a descent that found a full leaf `O` at page `lastPage`:
writing `m = L / 2` and letting `R` be the newly allocated right sibling
(page `bs.nextPageId`), the split (i) moves exactly the entries at slots
`m..L-1` of `O` to `R` starting at slot 0 and leaves the rest of `R` empty,
(ii) clears those slots in `O` and touches no slot below `m`, (iii) routes
the sibling chain `R.rightSib := O`'s old sibling and `O.rightSib := R`,
(iv) promotes into the parent slot `Goffset` the key that was
`O.keyArray[m]` before the move (equal to `R.keyArray[0]` after) and points
parent slot `Goffset+1` at `R`, and (v) targets the pending key at `R` with
slot `insertAt - m` exactly when it exceeds the promoted key, else at `O`
with the original slot. -/
theorem c7_leaf_split (L N : Nat) (keyValue : Int) (bs : BufState)
    (GparentPageId Goffset lastPage insertAt : Nat)
    (m : Nat) (hm : m = L / 2)
    (O : LeafNode) (hO : (bs.store lastPage).asLeaf L = O)
    (res : DescentResult × BufState)
    (hres : leafSplitFinish L N keyValue bs GparentPageId Goffset lastPage insertAt = res)
    (R : LeafNode) (hR : (res.2.store bs.nextPageId).asLeaf L = R)
    (Onew : LeafNode) (hOnew : (res.2.store lastPage).asLeaf L = Onew)
    (Pnew : NonLeafNode) (hPnew : (res.2.store GparentPageId).asInternal N = Pnew)
    (hkl : O.keyArray.length = L) (hrl : O.ridArray.length = L)
    (hpk : ((bs.store GparentPageId).asInternal N).keyArray.length = N)
    (hpp : ((bs.store GparentPageId).asInternal N).pageNoArray.length = N + 1)
    (hGoff : Goffset < N)
    (hne1 : GparentPageId ≠ lastPage) (hne2 : GparentPageId ≠ bs.nextPageId)
    (hne3 : lastPage ≠ bs.nextPageId) (hL : 1 ≤ L) :
    (∀ t, t < L - m → R.keyArray.getD t 0 = O.keyArray.getD (m + t) 0 ∧
        R.ridArray.getD t nullRid = O.ridArray.getD (m + t) nullRid) ∧
    (∀ t, L - m ≤ t → R.keyArray.getD t 0 = 0 ∧ R.ridArray.getD t nullRid = nullRid) ∧
    (∀ t, m ≤ t → t < L → Onew.keyArray.getD t 0 = 0 ∧
        Onew.ridArray.getD t nullRid = nullRid) ∧
    (∀ t, t < m → Onew.keyArray.getD t 0 = O.keyArray.getD t 0 ∧
        Onew.ridArray.getD t nullRid = O.ridArray.getD t nullRid) ∧
    R.rightSibPageNo = O.rightSibPageNo ∧
    Onew.rightSibPageNo = bs.nextPageId ∧
    Pnew.keyArray.getD Goffset 0 = O.keyArray.getD m 0 ∧
    R.keyArray.getD 0 0 = O.keyArray.getD m 0 ∧
    Pnew.pageNoArray.getD (Goffset + 1) 0 = bs.nextPageId ∧
    res.1.pageNo = (if keyValue > O.keyArray.getD m 0 then bs.nextPageId else lastPage) ∧
    res.1.insertAt = (if keyValue > O.keyArray.getD m 0 then insertAt - m else insertAt) ∧
    res.1.lastPageNo = lastPage := by
  have hmle : L / 2 ≤ L := Nat.div_le_self L 2
  have hmlt : L / 2 < L := Nat.div_lt_self (by omega) (by omega)
  subst hm hO hres hR hOnew hPnew
  obtain ⟨hms, hmd, hm1k, hm1r, hm2k, hm2r⟩ :=
    leafMoveAux_spec (L - L / 2)
      { (bs.store lastPage).asLeaf L with rightSibPageNo := bs.nextPageId }
      { zeroLeaf L with rightSibPageNo := ((bs.store lastPage).asLeaf L).rightSibPageNo }
      (L / 2) 0
      (by show L / 2 + (L - L / 2) ≤ ((bs.store lastPage).asLeaf L).keyArray.length; omega)
      (by show L / 2 + (L - L / 2) ≤ ((bs.store lastPage).asLeaf L).ridArray.length; omega)
      (by show 0 + (L - L / 2) ≤ (List.replicate L (0 : Int)).length
          rw [List.length_replicate]; omega)
      (by show 0 + (L - L / 2) ≤ (List.replicate L nullRid).length
          rw [List.length_replicate]; omega)
  simp only [leafSplitFinish, allocPage, writePage, unPinPage]
  simp only [eq_self_iff_true, if_true, if_neg hne1, if_neg hne2, if_neg hne3,
    asLeaf_leaf, asInternal_internal]
  refine ⟨?_, ?_, ?_, ?_, ?_, ?_, ?_, ?_, ?_, ?_, ?_, ?_⟩
  · intro t ht
    constructor
    · rw [hm2k t, if_pos (by omega)]
      simp
    · rw [hm2r t, if_pos (by omega)]
      simp
  · intro t ht
    constructor
    · rw [hm2k t, if_neg (by omega)]
      exact getD_replicate L t 0
    · rw [hm2r t, if_neg (by omega)]
      exact getD_replicate L t nullRid
  · intro t ht1 ht2
    constructor
    · rw [hm1k t, if_pos (by omega)]
    · rw [hm1r t, if_pos (by omega)]
  · intro t ht
    constructor
    · rw [hm1k t, if_neg (by omega)]
    · rw [hm1r t, if_neg (by omega)]
  · exact hmd
  · exact hms
  · exact getD_set_self (by rw [shiftInternal_keyArray_length]; omega) _ 0
  · rw [hm2k 0, if_pos (by omega)]
    simp
  · exact getD_set_self (by rw [shiftInternal_pageNoArray_length]; omega) _ 0
  · simp only [gt_iff_lt, List.getD_eq_getElem?_getD]
    split <;> rfl
  · simp only [gt_iff_lt, List.getD_eq_getElem?_getD]
    split <;> rfl
  · trivial

/-- Witness for C7: splitting the full leaf `[10, 20, 30]` (page 4) under
parent page 10 at `Goffset = 1` with pending key 40, the new right sibling
(page 5) inherits the old leaf's right-sibling pointer. -/
theorem c7_leaf_split_witness :
    (((leafSplitFinish 3 3 40 c7buf 10 1 4 3).2.store c7buf.nextPageId).asLeaf 3).rightSibPageNo
      = (⟨[10, 20, 30], [⟨10, 1⟩, ⟨20, 1⟩, ⟨30, 1⟩], 0⟩ : LeafNode).rightSibPageNo :=
  (c7_leaf_split 3 3 40 c7buf 10 1 4 3 1 rfl
    ⟨[10, 20, 30], [⟨10, 1⟩, ⟨20, 1⟩, ⟨30, 1⟩], 0⟩ rfl
    (leafSplitFinish 3 3 40 c7buf 10 1 4 3) rfl
    (((leafSplitFinish 3 3 40 c7buf 10 1 4 3).2.store c7buf.nextPageId).asLeaf 3) rfl
    (((leafSplitFinish 3 3 40 c7buf 10 1 4 3).2.store 4).asLeaf 3) rfl
    (((leafSplitFinish 3 3 40 c7buf 10 1 4 3).2.store 10).asInternal 3) rfl
    (by decide) (by decide) (by decide) (by decide) (by decide)
    (by decide) (by decide) (by decide) (by decide)).2.2.2.2.1

/-! ## Pin discipline of the descent (claim C8) -/

theorem pinnedTotal_append (t : List BufEvent) (e : BufEvent) :
    pinnedTotal (t ++ [e]) = pinnedTotal t + pinDelta e := by
  simp [pinnedTotal]

theorem pagePin_append (p : Nat) (t : List BufEvent) (e : BufEvent) :
    pagePin p (t ++ [e]) = pagePin p t + pagePinDelta p e := by
  simp [pagePin]

theorem pinnedTotal_nil : pinnedTotal [] = 0 := rfl

theorem boundedPrefix_snoc (t : List BufEvent) (e : BufEvent)
    (h : ∀ k, pinnedTotal (t.take k) ≤ 2) (he : pinnedTotal (t ++ [e]) ≤ 2) :
    ∀ k, pinnedTotal ((t ++ [e]).take k) ≤ 2 := by
  intro k
  by_cases hk : k ≤ t.length
  · rw [List.take_append_of_le_length hk]
    exact h k
  · rw [List.take_of_length_le (by simp; omega)]
    exact he

theorem pagePin_single_read (q : Nat) (p : Nat) :
    pagePin p [BufEvent.read q] = if p = q then 1 else 0 := by
  simp only [pagePin, List.map_cons, List.map_nil, List.sum_cons, List.sum_nil, pagePinDelta]
  split_ifs <;> omega

theorem pagePin_unpin_read (p l c : Nat) (t : List BufEvent)
    (h : pagePin p t = if p = l then 1 else 0) :
    pagePin p (t ++ [BufEvent.unpin l false] ++ [BufEvent.read c]) =
      if p = c then 1 else 0 := by
  rw [pagePin_append, pagePin_append, h]
  simp only [pagePinDelta]
  split_ifs <;> omega

theorem descendLoop_pins (N : Nat) (key : Int) :
    ∀ (fuel : Nat) (bs : BufState) (curr : BPage) (lastPage : Nat)
      (path : List (Nat × Nat)),
      pinnedTotal bs.trace = 1 →
      (∀ p, pagePin p bs.trace = if p = lastPage then 1 else 0) →
      (∀ k, pinnedTotal (bs.trace.take k) ≤ 2) →
      pinnedTotal (descendLoop N key fuel bs curr lastPage path).2.2.2.trace = 1 ∧
      (∀ p, pagePin p (descendLoop N key fuel bs curr lastPage path).2.2.2.trace =
        if p = (descendLoop N key fuel bs curr lastPage path).2.1 then 1 else 0) ∧
      (∀ k, pinnedTotal ((descendLoop N key fuel bs curr lastPage path).2.2.2.trace.take k) ≤ 2) ∧
      ∃ ps : List (Nat × Nat),
        (descendLoop N key fuel bs curr lastPage path).2.2.2.trace = bs.trace ++
          (ps.map (fun q => [BufEvent.unpin q.1 false, BufEvent.read q.2])).flatten := by
  intro fuel
  induction fuel with
  | zero =>
    intro bs curr lastPage path h1 h2 h3
    exact ⟨h1, h2, h3, [], by simp [descendLoop]⟩
  | succ fuel ih =>
    intro bs curr lastPage path h1 h2 h3
    have e1 : pinnedTotal (bs.trace ++ [BufEvent.unpin lastPage false] ++
        [BufEvent.read ((curr.asInternal N).pageNoArray.getD
          (findChildSlot N (curr.asInternal N) key) 0)]) = 1 := by
      rw [pinnedTotal_append, pinnedTotal_append, h1]
      simp [pinDelta]
    have e2 : ∀ p, pagePin p (bs.trace ++ [BufEvent.unpin lastPage false] ++
        [BufEvent.read ((curr.asInternal N).pageNoArray.getD
          (findChildSlot N (curr.asInternal N) key) 0)]) =
        if p = (curr.asInternal N).pageNoArray.getD
          (findChildSlot N (curr.asInternal N) key) 0 then 1 else 0 :=
      fun p => pagePin_unpin_read p lastPage _ bs.trace (h2 p)
    have e3 : ∀ k, pinnedTotal ((bs.trace ++ [BufEvent.unpin lastPage false] ++
        [BufEvent.read ((curr.asInternal N).pageNoArray.getD
          (findChildSlot N (curr.asInternal N) key) 0)]).take k) ≤ 2 := by
      have hmid : ∀ k, pinnedTotal ((bs.trace ++ [BufEvent.unpin lastPage false]).take k) ≤ 2 := by
        refine boundedPrefix_snoc _ _ h3 ?_
        rw [pinnedTotal_append, h1]; simp [pinDelta]
      refine boundedPrefix_snoc _ _ hmid ?_
      rw [e1]; omega
    obtain ⟨r1, r2, r3, ps, hps⟩ :=
      ih ⟨bs.store, bs.nextPageId,
            bs.trace ++ [BufEvent.unpin lastPage false] ++
              [BufEvent.read ((curr.asInternal N).pageNoArray.getD
                (findChildSlot N (curr.asInternal N) key) 0)]⟩
        (bs.store ((curr.asInternal N).pageNoArray.getD
          (findChildSlot N (curr.asInternal N) key) 0))
        ((curr.asInternal N).pageNoArray.getD (findChildSlot N (curr.asInternal N) key) 0)
        ((findChildSlot N (curr.asInternal N) key, lastPage) :: path)
        e1 e2 e3
    simp only [descendLoop, unPinPage, readPage]
    refine ⟨r1, r2, r3, (lastPage, (curr.asInternal N).pageNoArray.getD
      (findChildSlot N (curr.asInternal N) key) 0) :: ps, ?_⟩
    rw [hps]
    simp

theorem boundedPrefix_single (e : BufEvent) (he : pinDelta e ≤ 2) :
    ∀ k, pinnedTotal ([e].take k) ≤ 2 := by
  intro k
  cases k with
  | zero => simp [pinnedTotal]
  | succ k => simpa [pinnedTotal] using he

/-- Claim C8 (amended).  For a descent (`descendLoop`) entered with exactly
the root page pinned: at every moment at most two pages are pinned; the
trace the walk appends is an alternation of "unpin the previous page, read
the next child" blocks (the previous page is unpinned before the next is
read); when the walk stops, only the reached leaf page is pinned — in
*both* modes, so the claimed "in insert mode every page on the path remains
pinned" does not hold; and on exit from a descent whose leaf does not
overflow (`getPageNoAndOffsetOfKeyInsert`, no-split branch) no page remains
pinned at all, in read-only and insert mode alike. -/
theorem c8_descent_pins (L N : Nat) (key : Int) (rootPage : BPage)
    (rootPageNum : Nat) (bs : BufState) (insert : Bool)
    (w : BPage × Nat × List (Nat × Nat) × BufState)
    (hw : descendLoop N key (((rootPage.asInternal N).level - 1).toNat)
        bs rootPage rootPageNum [] = w)
    (h1 : pinnedTotal bs.trace = 1)
    (h2 : ∀ p, pagePin p bs.trace = if p = rootPageNum then 1 else 0)
    (h3 : ∀ k, pinnedTotal (bs.trace.take k) ≤ 2)
    (hnosplit : (leafScanPos L (w.1.asLeaf L) key insert).2 ≠ L) :
    (∀ k, pinnedTotal (w.2.2.2.trace.take k) ≤ 2) ∧
    (∃ ps : List (Nat × Nat), w.2.2.2.trace = bs.trace ++
      (ps.map (fun q => [BufEvent.unpin q.1 false, BufEvent.read q.2])).flatten) ∧
    (∀ p, pagePin p w.2.2.2.trace = if p = w.2.1 then 1 else 0) ∧
    (∀ p, pagePin p
      (getPageNoAndOffsetOfKeyInsert L N key rootPage rootPageNum bs insert).2.2.trace = 0) := by
  obtain ⟨wc, wl, wp, wb⟩ := w
  obtain ⟨r1, r2, r3, hex⟩ :=
    descendLoop_pins N key (((rootPage.asInternal N).level - 1).toNat)
      bs rootPage rootPageNum [] h1 h2 h3
  rw [hw] at r1 r2 r3 hex
  refine ⟨r3, hex, r2, ?_⟩
  intro p
  simp only [getPageNoAndOffsetOfKeyInsert, hw]
  rw [if_neg hnosplit]
  simp only [unPinPage]
  rw [pagePin_append, r2 p]
  simp only [pagePinDelta]
  split_ifs <;> omega

/-- Witness for C8: on the four-entry tree with the root freshly pinned, an
insert-mode descent for key 15 (which lands on the non-full leaf page 4)
exits with no page pinned; here instantiated at the root page 2. -/
theorem c8_descent_pins_witness :
    pagePin 2 ((getPageNoAndOffsetOfKeyInsert 3 3 15 (c8buf.store 2) 2 c8buf true).2.2.trace) = 0 :=
  (c8_descent_pins 3 3 15 (c8buf.store 2) 2 c8buf true
    (descendLoop 3 15 ((((c8buf.store 2).asInternal 3).level - 1).toNat) c8buf (c8buf.store 2) 2 [])
    rfl (by decide) (fun p => pagePin_single_read 2 p)
    (boundedPrefix_single _ (by decide)) (by decide)).2.2.2 2

/-- Claim C8, counterexample to the claim as stated: in insert mode, after
the descent for key 15 on the four-entry tree, the root (page 2, which is
on the root-to-leaf path) has pin count 0 — it does **not** remain pinned. -/
theorem c8_counterexample :
    pagePin 2 ((getPageNoAndOffsetOfKeyInsert 3 3 15 (c8buf.store 2) 2 c8buf true).2.2.trace) = 0 ∧
    (0 : Int) ≠ 1 := by
  refine ⟨by decide, by decide⟩

/-! ## Frame property of a splitless insert (claim C10) -/

theorem descendLoop_store (N : Nat) (key : Int) :
    ∀ (fuel : Nat) (bs : BufState) (curr : BPage) (lastPage : Nat)
      (path : List (Nat × Nat)),
      (descendLoop N key fuel bs curr lastPage path).2.2.2.store = bs.store ∧
      (descendLoop N key fuel bs curr lastPage path).2.2.2.nextPageId = bs.nextPageId := by
  intro fuel
  induction fuel with
  | zero => intro bs curr lastPage path; exact ⟨rfl, rfl⟩
  | succ fuel ih =>
    intro bs curr lastPage path
    exact ih _ _ _ _

theorem descendLoop_curr (N : Nat) (key : Int) :
    ∀ (fuel : Nat) (bs : BufState) (curr : BPage) (lastPage : Nat)
      (path : List (Nat × Nat)),
      curr = bs.store lastPage →
      (descendLoop N key fuel bs curr lastPage path).1 =
        bs.store (descendLoop N key fuel bs curr lastPage path).2.1 := by
  intro fuel
  induction fuel with
  | zero => intro bs curr lastPage path h; exact h
  | succ fuel ih =>
    intro bs curr lastPage path _
    exact ih _ _ _ _ rfl

theorem specUnoccAux_ge (leaf : LeafNode) :
    ∀ (fuel j : Nat), j ≤ specUnoccAux leaf fuel j := by
  intro fuel
  induction fuel with
  | zero => intro j; exact le_refl j
  | succ fuel ih =>
    intro j
    simp only [specUnoccAux]
    split
    · exact le_refl j
    · exact le_trans (by omega) (ih (j + 1))

theorem specUnoccAux_le (leaf : LeafNode) :
    ∀ (fuel j : Nat), specUnoccAux leaf fuel j ≤ j + fuel := by
  intro fuel
  induction fuel with
  | zero => intro j; exact le_refl j
  | succ fuel ih =>
    intro j
    simp only [specUnoccAux]
    split
    · omega
    · exact le_trans (ih (j + 1)) (by omega)

theorem specSlotGEAux_le_unocc (leaf : LeafNode) (key : Int) :
    ∀ (fuel j : Nat), specSlotGEAux leaf key fuel j ≤ specUnoccAux leaf fuel j := by
  intro fuel
  induction fuel with
  | zero => intro j; exact le_refl j
  | succ fuel ih =>
    intro j
    simp only [specSlotGEAux, specUnoccAux]
    by_cases h1 : (leaf.ridArray.getD j nullRid).page_number = 0
    · rw [if_pos (Or.inl h1), if_pos h1]
    · rw [if_neg h1]
      by_cases h2 : key ≤ leaf.keyArray.getD j 0
      · rw [if_pos (Or.inr h2)]
        exact le_trans (by omega) (specUnoccAux_ge leaf fuel (j + 1))
      · rw [if_neg (by rintro (h | h); exact h1 h; exact h2 h)]
        exact ih (j + 1)

theorem leafShiftLoop_spec (insertAt : Nat) :
    ∀ (e : Nat) (leaf : LeafNode), e < leaf.keyArray.length → e < leaf.ridArray.length →
      (leafShiftLoop insertAt leaf e).rightSibPageNo = leaf.rightSibPageNo ∧
      (leafShiftLoop insertAt leaf e).keyArray.length = leaf.keyArray.length ∧
      (leafShiftLoop insertAt leaf e).ridArray.length = leaf.ridArray.length ∧
      (∀ t, (leafShiftLoop insertAt leaf e).keyArray.getD t 0 =
        if insertAt < t ∧ t ≤ e then leaf.keyArray.getD (t - 1) 0
        else leaf.keyArray.getD t 0) ∧
      (∀ t, (leafShiftLoop insertAt leaf e).ridArray.getD t nullRid =
        if insertAt < t ∧ t ≤ e then leaf.ridArray.getD (t - 1) nullRid
        else leaf.ridArray.getD t nullRid) := by
  intro e
  induction e with
  | zero =>
    intro leaf _ _
    refine ⟨rfl, rfl, rfl, ?_, ?_⟩ <;> (intro t; rw [if_neg (by omega)]) <;> rfl
  | succ e ih =>
    intro leaf hk hr
    simp only [leafShiftLoop]
    by_cases hgt : e + 1 > insertAt
    · rw [if_pos hgt]
      obtain ⟨ih1, ih2, ih3, ih4, ih5⟩ :=
        ih ⟨leaf.keyArray.set (e + 1) (leaf.keyArray.getD e 0),
            leaf.ridArray.set (e + 1) (leaf.ridArray.getD e nullRid),
            leaf.rightSibPageNo⟩
          (by simpa using by omega) (by simpa using by omega)
      refine ⟨ih1, by simpa using ih2, by simpa using ih3, ?_, ?_⟩
      · intro t
        rw [ih4 t]
        by_cases ht : insertAt < t ∧ t ≤ e
        · rw [if_pos ht, if_pos (by omega)]
          exact getD_set_ne (by omega) _ 0
        · rw [if_neg ht]
          by_cases hte : t = e + 1
          · rw [hte, if_pos (by omega)]
            have harg : e + 1 - 1 = e := by omega
            rw [harg]
            exact getD_set_self (by omega) _ 0
          · rw [if_neg (by omega)]
            exact getD_set_ne (fun h => hte h.symm) _ 0
      · intro t
        rw [ih5 t]
        by_cases ht : insertAt < t ∧ t ≤ e
        · rw [if_pos ht, if_pos (by omega)]
          exact getD_set_ne (by omega) _ nullRid
        · rw [if_neg ht]
          by_cases hte : t = e + 1
          · rw [hte, if_pos (by omega)]
            have harg : e + 1 - 1 = e := by omega
            rw [harg]
            exact getD_set_self (by omega) _ nullRid
          · rw [if_neg (by omega)]
            exact getD_set_ne (fun h => hte h.symm) _ nullRid
    · rw [if_neg hgt]
      refine ⟨rfl, rfl, rfl, ?_, ?_⟩ <;> (intro t; rw [if_neg (by omega)])

theorem insertShiftLeaf_spec (leaf : LeafNode) (insertAt e : Nat) (key : Int)
    (rid : RecordId) (hIa : insertAt ≤ e)
    (hk : e < leaf.keyArray.length) (hr : e < leaf.ridArray.length) :
    (∀ t, t < insertAt →
      (insertShiftLeaf leaf insertAt e key rid).keyArray.getD t 0 = leaf.keyArray.getD t 0 ∧
      (insertShiftLeaf leaf insertAt e key rid).ridArray.getD t nullRid =
        leaf.ridArray.getD t nullRid) ∧
    ((insertShiftLeaf leaf insertAt e key rid).keyArray.getD insertAt 0 = key ∧
      (insertShiftLeaf leaf insertAt e key rid).ridArray.getD insertAt nullRid = rid) ∧
    (∀ t, insertAt < t → t ≤ e →
      (insertShiftLeaf leaf insertAt e key rid).keyArray.getD t 0 =
        leaf.keyArray.getD (t - 1) 0 ∧
      (insertShiftLeaf leaf insertAt e key rid).ridArray.getD t nullRid =
        leaf.ridArray.getD (t - 1) nullRid) ∧
    (∀ t, e < t →
      (insertShiftLeaf leaf insertAt e key rid).keyArray.getD t 0 = leaf.keyArray.getD t 0 ∧
      (insertShiftLeaf leaf insertAt e key rid).ridArray.getD t nullRid =
        leaf.ridArray.getD t nullRid) ∧
    (insertShiftLeaf leaf insertAt e key rid).rightSibPageNo = leaf.rightSibPageNo := by
  obtain ⟨hs1, hs2, hs3, hs4, hs5⟩ := leafShiftLoop_spec insertAt e leaf hk hr
  simp only [insertShiftLeaf]
  refine ⟨?_, ⟨?_, ?_⟩, ?_, ?_, hs1⟩
  · intro t ht
    constructor
    · rw [getD_set_ne (by omega) _ 0, hs4 t, if_neg (by omega)]
    · rw [getD_set_ne (by omega) _ nullRid, hs5 t, if_neg (by omega)]
  · exact getD_set_self (by omega) _ 0
  · exact getD_set_self (by omega) _ nullRid
  · intro t ht1 ht2
    constructor
    · rw [getD_set_ne (by omega) _ 0, hs4 t, if_pos (by omega)]
    · rw [getD_set_ne (by omega) _ nullRid, hs5 t, if_pos (by omega)]
  · intro t ht
    constructor
    · rw [getD_set_ne (by omega) _ 0, hs4 t, if_neg (by omega)]
    · rw [getD_set_ne (by omega) _ nullRid, hs5 t, if_neg (by omega)]

/-- Claim C10.  An `insertEntry` on a non-empty tree whose descent reaches
a leaf with free space (the within-leaf scan stops before `L`, so no split
occurs) changes only that target leaf: the cached root page number, the
allocator cursor, the meta page, the root, every internal node, and every
other leaf are unchanged, and within the target leaf only the slots from
`insert_slot` through the old `end_of_records` move (shifted right by one,
the new entry at `insert_slot`); the slots outside that range and the
right-sibling pointer are untouched.  Here `w` is the descent's result
(`w.2.1` is the target leaf's page), `leaf` its content, and
`pos = (insert_slot, end_of_records)`. -/
theorem c10_insert_no_split_frame (L N : Nat) (key : Int) (rid : RecordId)
    (st : BTIndex) (bs : BufState)
    (w : BPage × Nat × List (Nat × Nat) × BufState)
    (hw : descendLoop N key ((((bs.store st.rootPageNum).asInternal N).level - 1).toNat)
        ((readPage bs st.rootPageNum).2) (bs.store st.rootPageNum) st.rootPageNum [] = w)
    (leaf : LeafNode) (hleaf : w.1.asLeaf L = leaf)
    (pos : Nat × Nat) (hpos : leafScanPos L leaf key true = pos)
    (newLeaf : LeafNode) (hnew : insertShiftLeaf leaf pos.1 pos.2 key rid = newLeaf)
    (hroot : ((bs.store st.rootPageNum).asInternal N).pageNoArray.getD 0 0 ≠ 0)
    (hfree : pos.2 ≠ L)
    (hkl : leaf.keyArray.length = L) (hrl : leaf.ridArray.length = L) :
    (insertKeyTemplate L N st bs key rid).1 = st ∧
    (∀ p, p ≠ w.2.1 → (insertKeyTemplate L N st bs key rid).2.store p = bs.store p) ∧
    (insertKeyTemplate L N st bs key rid).2.nextPageId = bs.nextPageId ∧
    (insertKeyTemplate L N st bs key rid).2.store w.2.1 = BPage.leaf newLeaf ∧
    (∀ t, t < pos.1 → newLeaf.keyArray.getD t 0 = leaf.keyArray.getD t 0 ∧
        newLeaf.ridArray.getD t nullRid = leaf.ridArray.getD t nullRid) ∧
    (newLeaf.keyArray.getD pos.1 0 = key ∧ newLeaf.ridArray.getD pos.1 nullRid = rid) ∧
    (∀ t, pos.1 < t → t ≤ pos.2 → newLeaf.keyArray.getD t 0 = leaf.keyArray.getD (t - 1) 0 ∧
        newLeaf.ridArray.getD t nullRid = leaf.ridArray.getD (t - 1) nullRid) ∧
    (∀ t, pos.2 < t → newLeaf.keyArray.getD t 0 = leaf.keyArray.getD t 0 ∧
        newLeaf.ridArray.getD t nullRid = leaf.ridArray.getD t nullRid) ∧
    newLeaf.rightSibPageNo = leaf.rightSibPageNo := by
  obtain ⟨wc, wl, wp, wb⟩ := w
  simp only at hleaf hnew hpos hroot hfree ⊢
  -- the scan positions in closed form
  have hposval : leafScanPos L leaf key true =
      (specInsertSlotGE L leaf key, specFirstUnocc L leaf) := by
    simpa using leafScanLoop_unset leaf key true L L 0 (by omega)
  rw [hposval] at hpos
  subst hpos
  simp only at hnew hfree
  have hIa : specInsertSlotGE L leaf key ≤ specFirstUnocc L leaf :=
    specSlotGEAux_le_unocc leaf key L 0
  have hE : specFirstUnocc L leaf ≤ L := by
    simpa using specUnoccAux_le leaf L 0
  -- the descent does not touch the store and ends on the page it reports
  have hst := descendLoop_store N key
    ((((bs.store st.rootPageNum).asInternal N).level - 1).toNat)
    ((readPage bs st.rootPageNum).2) (bs.store st.rootPageNum) st.rootPageNum []
  have hcur := descendLoop_curr N key
    ((((bs.store st.rootPageNum).asInternal N).level - 1).toNat)
    ((readPage bs st.rootPageNum).2) (bs.store st.rootPageNum) st.rootPageNum [] rfl
  rw [hw] at hst hcur
  simp only [readPage] at hst hcur
  obtain ⟨hst1, hst2⟩ := hst
  -- characterize the slot movement
  obtain ⟨hc1, hc2, hc3, hc4, hc5⟩ :=
    insertShiftLeaf_spec leaf (specInsertSlotGE L leaf key) (specFirstUnocc L leaf)
      key rid hIa (by omega) (by omega)
  rw [hnew] at hc1 hc2 hc3 hc4 hc5
  -- unfold the insert
  have hwl : wc = bs.store wl := by simpa [hst1] using hcur
  simp only [readPage] at hw
  simp only [insertKeyTemplate, readPage, getPageNoAndOffsetOfKeyInsert, unPinPage, writePage]
  rw [hw]
  simp only [hleaf, hposval]
  rw [if_neg hroot, if_neg hfree]
  refine ⟨rfl, ?_, hst2, ?_, hc1, hc2, hc3, hc4, hc5⟩
  · intro p hp
    simp [hst1, hp]
  · simp [hst1, ← hwl, hleaf, hnew]

/-- Witness for C10: inserting `(15, (15,1))` into the four-entry tree (a
splitless insert into leaf page 4) leaves the index state — in particular
the cached root page number — unchanged. -/
theorem c10_insert_no_split_frame_witness :
    (insertKeyTemplate 3 3 c10st c10bs 15 ⟨15, 1⟩).1 = c10st :=
  (c10_insert_no_split_frame 3 3 15 ⟨15, 1⟩ c10st c10bs c10walk rfl c10leaf rfl
    c10pos rfl c10new rfl (by decide) (by decide) (by decide) (by decide)).1

end BadgerBt
